import Mathlib

/-!
Verification development for the `atk_s3_audio_stream` network streaming
client (`main/net_stream.cc`, `main/main.cc`).

The wire protocol, the send/recv retry loops and the two streamer task
loops are embedded shallowly: machine integers become `Nat` with explicit
`% 2^w` where the C code casts, the packed little-endian `PcmHeader`
struct becomes an explicit byte serialization, and each FreeRTOS task
loop becomes a step function over a small state type driven by a list of
environment events (connect results, send/recv results, codec data
availability).
-/

namespace NetStream

/-- Protocol magic constant, from `net_stream.cc`:
`static constexpr uint32_t PCM_MAGIC = 0x304D4350u; // 'PCM0'`. -/
def PCM_MAGIC : Nat := 0x304D4350

/-- The packed wire header from `net_stream.cc`:
`struct __attribute__((packed)) PcmHeader { uint32_t magic; uint8_t type; uint16_t len; }`.
Fields hold the stored machine values: `magic < 2^32`, `type < 2^8`,
`len < 2^16` whenever built by the constructors below. -/
structure PcmHeader where
  magic : Nat
  type : Nat
  len : Nat
deriving DecidableEq, Repr

/-- Little-endian byte serialization of a 16-bit value (ESP32 is
little-endian; the struct is packed, so this is the wire layout). -/
def le16 (n : Nat) : List Nat := [n % 256, n / 256 % 256]

/-- Little-endian byte serialization of a 32-bit value. -/
def le32 (n : Nat) : List Nat :=
  [n % 256, n / 256 % 256, n / 65536 % 256, n / 16777216 % 256]

/-- The 7 bytes of a packed `PcmHeader` as laid out in memory on the
ESP32 (little-endian, no padding): 4 magic bytes, 1 type byte, 2 length
bytes. -/
def headerBytes (h : PcmHeader) : List Nat :=
  le32 h.magic ++ [h.type % 256] ++ le16 h.len

/-- Reading 7 received bytes back as a packed `PcmHeader` (what
`recv_all(sock, (uint8_t*)&hdr, sizeof(hdr))` followed by field access
does). Fails unless exactly 7 bytes are given. -/
def parseHeader (bs : List Nat) : Option PcmHeader :=
  match bs with
  | [b0, b1, b2, b3, b4, b5, b6] =>
      some ⟨b0 + 256 * b1 + 65536 * b2 + 16777216 * b3, b4, b5 + 256 * b6⟩
  | _ => none

/-- The header the uplink builds for a payload of `n` bytes:
`PcmHeader hdr{ PCM_MAGIC, 0x01, (uint16_t)(frame.size() * sizeof(int16_t)) }`
generalized over the direction byte; the `(uint16_t)` cast is the
`% 65536`, the `uint8_t` field stores `d % 256`. -/
def mkHeader (d : Nat) (payloadBytes : Nat) : PcmHeader :=
  ⟨PCM_MAGIC, d % 256, payloadBytes % 65536⟩

/-- Wire bytes of `encode(direction, payload)`: header bytes followed by the payload
bytes, as the uplink writes them (`send_all(hdr)` then
`send_all(frame.data())`). -/
def encode (d : Nat) (payload : List Nat) : List Nat :=
  headerBytes (mkHeader d payload.length) ++ payload

/-- Header validation of the downlink, from `spk_downlink_task`:
`if (hdr.magic != PCM_MAGIC || hdr.type != 0x02 || hdr.len == 0) ... break;`.
Returns `true` exactly when the header is accepted. -/
def downlinkHeaderValid (h : PcmHeader) : Bool :=
  h.magic == PCM_MAGIC && h.type == 2 && h.len != 0

/-- Number of `int16_t` slots the downlink allocates for the payload:
`std::vector<int16_t> buf(hdr.len / sizeof(int16_t))`. -/
def downlinkBufSamples (len : Nat) : Nat := len / 2

/-- Byte capacity of that buffer: `(hdr.len / 2)` slots of 2 bytes. -/
def downlinkBufCapacityBytes (len : Nat) : Nat := downlinkBufSamples len * 2

/-- Bytes the downlink then reads into the buffer:
`recv_all(sock, (uint8_t*)buf.data(), hdr.len)`. -/
def downlinkBytesRead (len : Nat) : Nat := len

/-!
## `send_all` / `recv_all`

The transport is modelled by an oracle: the list of successive return
values of `::send` (resp. `::recv`), each call consuming one entry.  A
positive value is the number of bytes transferred by that call, a value
`≤ 0` is the error/EOF return.  The kernel never transfers more than
requested, which the theorems state as the `oracleFits` side condition.
-/

/-- Socket-level guarantee: each positive return value of the oracle is
at most the number of bytes still requested at that call. -/
def oracleFits : List Int → Nat → Bool
  | [], _ => true
  | r :: rest, len =>
      if 0 < r then decide (r.toNat ≤ len) && oracleFits rest (len - r.toNat)
      else true

/-- Loop body of `send_all`: while fewer than `len` bytes are sent, call
`send` once more; a return value of zero or less aborts with failure,
a positive one is added to the running count.  Returns the
result, the total bytes counted into `sent`, and the unconsumed oracle.
An exhausted oracle (no further `send` result available) is reported as
failure. -/
def sendAllLoop : List Int → Nat → Nat → Bool × Nat × List Int
  | rets, sent, len =>
    if sent < len then
      match rets with
      | [] => (false, sent, [])
      | r :: rest =>
          if r ≤ 0 then (false, sent, rest)
          else sendAllLoop rest (sent + r.toNat) len
    else (true, sent, rets)

/-- Entry point `send_all(sock, data, len)` under the oracle `rets`. -/
def sendAll (rets : List Int) (len : Nat) : Bool × Nat × List Int :=
  sendAllLoop rets 0 len

/-- Loop body of `recv_all`, identical in shape to `send_all` with
`recv` in place of `send`. -/
def recvAllLoop : List Int → Nat → Nat → Bool × Nat × List Int
  | rets, recvd, len =>
    if recvd < len then
      match rets with
      | [] => (false, recvd, [])
      | r :: rest =>
          if r ≤ 0 then (false, recvd, rest)
          else recvAllLoop rest (recvd + r.toNat) len
    else (true, recvd, rets)

/-- Entry point `recv_all(sock, data, len)` under the oracle `rets`. -/
def recvAll (rets : List Int) (len : Nat) : Bool × Nat × List Int :=
  recvAllLoop rets 0 len

/-!
## Deterministic byte-stream transport for the downlink

For whole-frame reasoning the incoming connection is a finite list of
bytes followed by the peer closing: one `recv(n)` returns all currently
buffered bytes up to `n`, and returns `0` once the list is exhausted.
Under this refinement `recv_all` succeeds iff enough bytes remain.
-/

/-- Version of `recv_all` over the byte-stream transport: reads `need` bytes,
retrying partial reads; returns the bytes and the rest of the stream, or
`none` when the stream ends first (`ret <= 0` inside the loop). -/
def recvAllBytes (avail : List Nat) (need : Nat) : Option (List Nat × List Nat) :=
  if need = 0 then some ([], avail)
  else
    match avail with
    | [] => none
    | b :: rest =>
        match recvAllBytes rest (need - 1) with
        | some (got, left) => some (b :: got, left)
        | none => none

/-!
## Task state machines

Each FreeRTOS task is an infinite loop; its control state and the
delays/outputs it emits per step are made explicit.  Environment
choices (did `connect` succeed, did the codec have data, did a
send/recv fail) are the events.
-/

/-- Control states of the `mic_uplink_task` loop. `connecting` is the top
of the outer `while (true)` (about to call `connect_to`); `hello` is
after a successful connect (about to send the direction token);
`streaming` is the inner `while (true)`; `closing` is after `break`
(about to `::close` and delay). -/
inductive UpState
  | connecting
  | hello
  | streaming
  | closing
deriving DecidableEq, Repr

/-- Environment events for the uplink loop. -/
inductive UpEvent
  /-- call to `connect_to` returned a valid socket. -/
  | connectOk
  /-- call to `connect_to` returned a negative value. -/
  | connectFail
  /-- the `send_all` of the `"HELLO-UP"` token returned `ok`. -/
  | helloSent (ok : Bool)
  /-- call to `InputData(frame)` returned false (no data yet). -/
  | inputNone
  /-- data obtained and both `send_all` calls succeeded. -/
  | frameSent
  /-- data obtained but `send_all` of the header failed. -/
  | hdrSendFail
  /-- header sent but `send_all` of the payload failed. -/
  | payloadSendFail
deriving DecidableEq, Repr

/-- Sample rate returned by the codec accessor `input_sample_rate()`:
`main.cc` constructs the codec with `INPUT_SR`. -/
def INPUT_SR : Nat := 24000

/-- Modelled from the spec: the channel count returned by the codec
accessor `input_channels()`.  The `Es8388AudioCodec` implementation is
not part of the sources here; the spec fixes the configuration as mono
("one 20 ms block at a 24000 Hz, mono configuration"). -/
def INPUT_CHANNELS : Nat := 1

/-- Samples per 20 ms block: `const size_t frame_samples = sample_rate / 50`. -/
def frame_samples (sample_rate : Nat) : Nat := sample_rate / 50

/-- Element count of the uplink frame buffer:
`std::vector<int16_t> frame(frame_samples * codec->input_channels())`. -/
def frameSize (sr ch : Nat) : Nat := frame_samples sr * ch

/-- Payload bytes per uplink frame: `frame.size() * sizeof(int16_t)`. -/
def uplinkPayloadBytes (sr ch : Nat) : Nat := frameSize sr ch * 2

/-- The header `mic_uplink_task` builds every iteration:
`PcmHeader hdr{ PCM_MAGIC, 0x01, (uint16_t)(frame.size() * sizeof(int16_t)) }`. -/
def uplinkHeader (sr ch : Nat) : PcmHeader := mkHeader 1 (uplinkPayloadBytes sr ch)

/-- One step of `mic_uplink_task`: next state, delay issued in ms
(`vTaskDelay` argument, 0 when none), and the header written on the wire
during this step, if any.  The token-send step `hello` ignores the
result `ok` exactly as the code discards the `send_all` return value. -/
def upStep (sr ch : Nat) : UpState → UpEvent → UpState × Nat × Option PcmHeader
  | .connecting, .connectFail => (.connecting, 2000, none)
  | .connecting, .connectOk => (.hello, 0, none)
  | .hello, .helloSent _ => (.streaming, 0, none)
  | .streaming, .inputNone => (.streaming, 5, none)
  | .streaming, .frameSent => (.streaming, 0, some (uplinkHeader sr ch))
  | .streaming, .hdrSendFail => (.closing, 0, none)
  | .streaming, .payloadSendFail => (.closing, 0, some (uplinkHeader sr ch))
  | .closing, _ => (.connecting, 1000, none)
  | s, _ => (s, 0, none)

/-- Run the uplink loop over an event list, collecting the delays issued
and the headers written. -/
def runUp (sr ch : Nat) : UpState → List UpEvent → UpState × List Nat × List PcmHeader
  | s, [] => (s, [], [])
  | s, e :: es =>
      ((runUp sr ch (upStep sr ch s e).1 es).1,
       (upStep sr ch s e).2.1 :: (runUp sr ch (upStep sr ch s e).1 es).2.1,
       (upStep sr ch s e).2.2.toList ++ (runUp sr ch (upStep sr ch s e).1 es).2.2)

/-- Control states of the `spk_downlink_task` loop. -/
inductive DnState
  | connecting
  | hello
  | streaming
  | closing
deriving DecidableEq, Repr

/-- Environment events for the downlink loop. -/
inductive DnEvent
  | connectOk
  | connectFail
  /-- the `send_all` of the `"HELLO-DOWN"` token returned `ok`. -/
  | helloSent (ok : Bool)
  /-- call of `recv_all` for the 7 header bytes failed. -/
  | recvHdrFail
  /-- header received but `downlinkHeaderValid` was false. -/
  | hdrInvalid
  /-- valid header but `recv_all` of the payload failed. -/
  | recvPayloadFail
  /-- a full valid frame arrived and was handed to `OutputData`. -/
  | frameOk
deriving DecidableEq, Repr

/-- One step of `spk_downlink_task`: next state and delay issued in ms.
As in the uplink, the hello-token result is discarded. -/
def dnStep : DnState → DnEvent → DnState × Nat
  | .connecting, .connectFail => (.connecting, 2000)
  | .connecting, .connectOk => (.hello, 0)
  | .hello, .helloSent _ => (.streaming, 0)
  | .streaming, .recvHdrFail => (.closing, 0)
  | .streaming, .hdrInvalid => (.closing, 0)
  | .streaming, .recvPayloadFail => (.closing, 0)
  | .streaming, .frameOk => (.streaming, 0)
  | .closing, _ => (.connecting, 1000)
  | s, _ => (s, 0)

/-- Run the downlink loop over an event list, collecting delays. -/
def runDn : DnState → List DnEvent → DnState × List Nat
  | s, [] => (s, [])
  | s, e :: es =>
      ((runDn (dnStep s e).1 es).1, (dnStep s e).2 :: (runDn (dnStep s e).1 es).2)

/-- The read loop of one downlink connection over the byte-stream
transport: repeatedly receive 7 header bytes, validate, receive the
payload, and append the delivered block to `playback`
(`codec->OutputData(buf)`).  Any failure is the `break` that closes the
connection; the accumulated playback deliveries are returned.  `fuel`
bounds the number of frames (the real loop runs until failure). -/
def spkDownlinkConn : Nat → List Nat → List (List Nat) → List (List Nat)
  | 0, _, playback => playback
  | fuel + 1, avail, playback =>
    match recvAllBytes avail 7 with
    | none => playback
    | some (hdrBytes, rest) =>
      match parseHeader hdrBytes with
      | none => playback
      | some hdr =>
        if downlinkHeaderValid hdr then
          match recvAllBytes rest hdr.len with
          | none => playback
          | some (payload, rest') => spkDownlinkConn fuel rest' (playback ++ [payload])
        else playback

/-!
## Helper lemmas
-/

lemma headerBytes_length (h : PcmHeader) : (headerBytes h).length = 7 := by
  simp [headerBytes, le32, le16]

/-- Parsing the packed bytes of an in-range header recovers the header. -/
lemma parseHeader_headerBytes (h : PcmHeader) (hm : h.magic < 4294967296)
    (ht : h.type < 256) (hl : h.len < 65536) :
    parseHeader (headerBytes h) = some h := by
  obtain ⟨m, t, l⟩ := h
  simp only [headerBytes, le32, le16, List.append_assoc, List.cons_append,
    List.nil_append, parseHeader, Option.some.injEq, PcmHeader.mk.injEq]
  simp only at hm ht hl
  refine ⟨by omega, by omega, by omega⟩

/-- The byte-stream `recv_all` returns exactly the first block when it is
fully buffered. -/
lemma recvAllBytes_append (xs ys : List Nat) :
    recvAllBytes (xs ++ ys) xs.length = some (xs, ys) := by
  induction xs with
  | nil =>
      rw [List.nil_append, recvAllBytes.eq_def]
      simp
  | cons b rest ih =>
      rw [List.cons_append, recvAllBytes.eq_def]
      simp [ih]

/-- The byte-stream `recv_all` fails when the stream ends before `need`
bytes arrived. -/
lemma recvAllBytes_short (xs : List Nat) (need : Nat) (hs : xs.length < need) :
    recvAllBytes xs need = none := by
  induction xs generalizing need with
  | nil =>
      rw [recvAllBytes.eq_def]
      simp
      omega
  | cons b rest ih =>
      rw [recvAllBytes.eq_def]
      have hneed : need ≠ 0 := by simp at hs; omega
      simp only [hneed, if_false]
      rw [ih (need - 1) (by simp at hs ⊢; omega)]

/-- On success the send loop has written exactly `len` bytes, provided the
oracle never transfers more than requested. -/
lemma sendAllLoop_true (rets : List Int) (sent len : Nat) (hle : sent ≤ len)
    (hfit : oracleFits rets (len - sent) = true)
    (h : (sendAllLoop rets sent len).1 = true) :
    (sendAllLoop rets sent len).2.1 = len := by
  induction rets generalizing sent with
  | nil =>
      rw [sendAllLoop] at h ⊢
      by_cases hcmp : sent < len
      · simp [hcmp] at h
      · simp [hcmp]; omega
  | cons r rest ih =>
      rw [sendAllLoop] at h ⊢
      by_cases hcmp : sent < len
      · simp only [hcmp, if_true] at h ⊢
        by_cases hr : r ≤ 0
        · simp [hr] at h
        · simp only [hr, if_false] at h ⊢
          have hrpos : 0 < r := by omega
          rw [oracleFits] at hfit
          simp only [hrpos, if_true, Bool.and_eq_true, decide_eq_true_eq] at hfit
          have := hfit.2
          have harith : len - (sent + r.toNat) = len - sent - r.toNat := by omega
          exact ih (sent + r.toNat) (by omega) (by rw [harith]; exact this) h
      · simp [hcmp]; omega

/-- On failure the send loop has written fewer than `len` bytes. -/
lemma sendAllLoop_false (rets : List Int) (sent len : Nat)
    (h : (sendAllLoop rets sent len).1 = false) :
    (sendAllLoop rets sent len).2.1 < len := by
  induction rets generalizing sent with
  | nil =>
      rw [sendAllLoop] at h ⊢
      by_cases hcmp : sent < len
      · simp only [hcmp, if_true]
      · simp [hcmp] at h
  | cons r rest ih =>
      rw [sendAllLoop] at h ⊢
      by_cases hcmp : sent < len
      · simp only [hcmp, if_true] at h ⊢
        by_cases hr : r ≤ 0
        · simp only [hr, if_true]
          exact hcmp
        · simp only [hr, if_false] at h ⊢
          exact ih (sent + r.toNat) h
      · simp [hcmp] at h

/-!
## Claims
-/

/-- C1 counterexample: the claim quantifies over every non-empty payload,
but the `(uint16_t)` cast in the header constructor truncates the length
of a 65536-byte payload to 0, so decoding does not recover the original
payload byte length. -/
theorem C1_counterexample :
    List.replicate 65536 (0 : Nat) ≠ [] ∧
    parseHeader (List.take 7 (encode 1 (List.replicate 65536 (0 : Nat)))) =
      some ⟨PCM_MAGIC, 1, 0⟩ ∧
    (0 : Nat) ≠ (List.replicate 65536 (0 : Nat)).length := by
  refine ⟨?_, ?_, ?_⟩
  · rw [Ne, ← List.length_eq_zero, List.length_replicate]
    decide
  · rw [encode, List.length_replicate,
      List.take_append_of_le_length (headerBytes_length _).ge,
      List.take_of_length_le (headerBytes_length _).le]
    have h2 : mkHeader 1 65536 = ⟨PCM_MAGIC, 1, 0⟩ := by decide
    rw [h2]
    exact parseHeader_headerBytes _ (by decide) (by decide) (by decide)
  · rw [List.length_replicate]
    decide

/-- C1 (amended): for direction tag 1 or 2 and a non-empty payload of
fewer than 65536 bytes, parsing the 7 header bytes produced by `encode`
recovers the direction tag and the payload byte length exactly. -/
theorem C1_header_roundtrip (d : Nat) (payload : List Nat)
    (hd : d = 1 ∨ d = 2) (_hne : payload ≠ [])
    (hlen : payload.length < 65536) :
    parseHeader (List.take 7 (encode d payload)) =
      some ⟨PCM_MAGIC, d, payload.length⟩ := by
  rw [encode, List.take_append_of_le_length (headerBytes_length _).ge]
  rw [List.take_of_length_le (headerBytes_length _).le]
  have hdlt : d < 256 := by rcases hd with h | h <;> omega
  have : mkHeader d payload.length = ⟨PCM_MAGIC, d, payload.length⟩ := by
    simp [mkHeader, Nat.mod_eq_of_lt hdlt, Nat.mod_eq_of_lt hlen]
  rw [this]
  exact parseHeader_headerBytes _ (by show PCM_MAGIC < 4294967296; decide) hdlt hlen

/-- C1 witness: the round-trip law at direction 1 and a two-byte payload. -/
theorem C1_header_roundtrip_witness :
    parseHeader (List.take 7 (encode 1 [7, 8])) = some ⟨PCM_MAGIC, 1, 2⟩ :=
  C1_header_roundtrip 1 [7, 8] (Or.inl rfl) (by decide) (by decide)

/-- C2 counterexample: a downlink header with the correct magic, the
known direction tag 1 and a non-zero length is rejected by the code
(`hdr.type != 0x02`), although the claim says any of the two known tags
is accepted. -/
theorem C2_counterexample :
    ((PcmHeader.mk PCM_MAGIC 1 960).type = 1 ∨ (PcmHeader.mk PCM_MAGIC 1 960).type = 2) ∧
    (PcmHeader.mk PCM_MAGIC 1 960).magic = PCM_MAGIC ∧
    (PcmHeader.mk PCM_MAGIC 1 960).len ≠ 0 ∧
    downlinkHeaderValid (PcmHeader.mk PCM_MAGIC 1 960) = false := by
  decide

/-- C2 (amended): the downlink validation rejects a header exactly when
the magic differs from the protocol constant, or the direction tag is
not 2 (the downlink tag; the uplink tag 1 is also rejected here), or the
declared length is zero; a header with correct magic, tag 2 and non-zero
length is accepted.  The rejection is recoverable: it moves the loop to
`closing` and from there back to `connecting`, never terminating. -/
theorem C2_invalid_iff :
    (∀ h : PcmHeader,
      downlinkHeaderValid h = true ↔ (h.magic = PCM_MAGIC ∧ h.type = 2 ∧ h.len ≠ 0)) ∧
    dnStep .streaming .hdrInvalid = (.closing, 0) ∧
    (∀ e, dnStep .closing e = (.connecting, 1000)) := by
  refine ⟨?_, rfl, ?_⟩
  · intro h
    simp [downlinkHeaderValid, and_assoc]
  · intro e
    cases e <;> rfl

/-- C2 witness: the validation accepts the magic/tag-2/length-960 header. -/
theorem C2_invalid_iff_witness :
    downlinkHeaderValid (PcmHeader.mk PCM_MAGIC 2 960) = true :=
  (C2_invalid_iff.1 (PcmHeader.mk PCM_MAGIC 2 960)).mpr (by decide)

/-- C3: the code has no multiple-of-2 check on the declared downlink
length.  A header with magic, tag 2 and the odd length 3 passes
validation, the read loop reads all 3 payload bytes and delivers the
block to playback, and those 3 bytes are written into a buffer whose
capacity is only `(3 / 2) * 2 = 2` bytes (heap overflow), contradicting
the specified check-and-reject behaviour. -/
theorem C3_odd_length_processed :
    downlinkHeaderValid (PcmHeader.mk PCM_MAGIC 2 3) = true ∧
    (3 : Nat) % 2 ≠ 0 ∧
    downlinkBufCapacityBytes 3 < downlinkBytesRead 3 ∧
    spkDownlinkConn 1 (headerBytes (PcmHeader.mk PCM_MAGIC 2 3) ++ [10, 11, 12]) [] =
      [[10, 11, 12]] := by
  refine ⟨by decide, by decide, by decide, ?_⟩
  rfl

/-- C4 counterexample: after a failed send of the direction token
(`helloSent false`), both loops move on to the streaming phase instead
of the claimed transition to closing; the token-send result is
discarded. -/
theorem C4_counterexample :
    upStep 24000 1 .hello (.helloSent false) = (.streaming, 0, none) ∧
    (upStep 24000 1 .hello (.helloSent false)).1 ≠ .closing ∧
    dnStep .hello (.helloSent false) = (.streaming, 0) ∧
    (dnStep .hello (.helloSent false)).1 ≠ .closing := by
  refine ⟨rfl, by decide, rfl, by decide⟩

/-- C4 (amended): the result of the direction-token send is ignored:
whether it succeeded or failed, both streamer loops proceed from the
handshake directly to the streaming phase, and a dead connection is only
detected (and then closed) when the first framed send or receive fails. -/
theorem C4_hello_result_ignored (sr ch : Nat) (b : Bool) :
    upStep sr ch .hello (.helloSent b) = (.streaming, 0, none) ∧
    dnStep .hello (.helloSent b) = (.streaming, 0) ∧
    upStep sr ch .streaming .hdrSendFail = (.closing, 0, none) ∧
    dnStep .streaming .recvHdrFail = (.closing, 0) :=
  ⟨rfl, rfl, rfl, rfl⟩

/-- A short delivery: the downlink frame-processing loop leaves the
playback sequence unchanged whenever the declared payload is longer than
what arrives before the stream ends. -/
theorem C5_short_payload_not_played :
    (∀ (fuel : Nat) (h : PcmHeader) (short : List Nat) (pb : List (List Nat)),
      h.magic < 4294967296 → h.type < 256 → h.len < 65536 →
      short.length < h.len →
      spkDownlinkConn fuel (headerBytes h ++ short) pb = pb) ∧
    dnStep .streaming .recvPayloadFail = (.closing, 0) ∧
    (recvAll [6, 0] 10).1 = false := by
  refine ⟨?_, rfl, by decide⟩
  intro fuel h short pb hm ht hl hshort
  cases fuel with
  | zero => rfl
  | succ fuel =>
      have h7 : recvAllBytes (headerBytes h ++ short) 7 = some (headerBytes h, short) := by
        have := recvAllBytes_append (headerBytes h) short
        rwa [headerBytes_length] at this
      rw [spkDownlinkConn]
      simp only [h7, parseHeader_headerBytes h hm ht hl]
      by_cases hv : downlinkHeaderValid h = true
      · simp only [hv, if_true, recvAllBytes_short short h.len hshort]
      · simp [hv]

/-- C5 witness: declared length 10, stream closed after 6 payload bytes;
nothing reaches playback and the machine transition is to closing. -/
theorem C5_short_payload_not_played_witness :
    spkDownlinkConn 1 (headerBytes (PcmHeader.mk PCM_MAGIC 2 10) ++ [1, 2, 3, 4, 5, 6]) [] = [] ∧
    dnStep .streaming .recvPayloadFail = (.closing, 0) :=
  ⟨C5_short_payload_not_played.1 1 (PcmHeader.mk PCM_MAGIC 2 10) [1, 2, 3, 4, 5, 6] []
      (by decide) (by decide) (by decide) (by decide),
    C5_short_payload_not_played.2.1⟩

/-- C6: every failed connect attempt costs exactly one fixed 2000 ms
delay and returns to `connecting`, for any number of consecutive
failures (no retry limit); and from every state of either streamer loop
some event sequence re-enters `connecting` — the loops have no exit. -/
theorem C6_reconnect_forever :
    (∀ (sr ch n : Nat),
      runUp sr ch .connecting (List.replicate n .connectFail) =
        (.connecting, List.replicate n 2000, [])) ∧
    (∀ n : Nat,
      runDn .connecting (List.replicate n .connectFail) =
        (.connecting, List.replicate n 2000)) ∧
    (∀ (sr ch : Nat) (s : UpState), ∃ evs, (runUp sr ch s evs).1 = .connecting) ∧
    (∀ s : DnState, ∃ evs, (runDn s evs).1 = .connecting) := by
  refine ⟨?_, ?_, ?_, ?_⟩
  · intro sr ch n
    induction n with
    | zero => rfl
    | succ n ih =>
        rw [List.replicate_succ, List.replicate_succ, runUp]
        simp only [upStep, ih, Option.toList, List.nil_append]
  · intro n
    induction n with
    | zero => rfl
    | succ n ih =>
        rw [List.replicate_succ, List.replicate_succ, runDn]
        simp only [dnStep, ih]
  · intro sr ch s
    cases s with
    | connecting => exact ⟨[], rfl⟩
    | hello => exact ⟨[.helloSent true, .hdrSendFail, .connectFail], rfl⟩
    | streaming => exact ⟨[.hdrSendFail, .connectFail], rfl⟩
    | closing => exact ⟨[.connectFail], rfl⟩
  · intro s
    cases s with
    | connecting => exact ⟨[], rfl⟩
    | hello => exact ⟨[.helloSent true, .recvHdrFail, .connectFail], rfl⟩
    | streaming => exact ⟨[.recvHdrFail, .connectFail], rfl⟩
    | closing => exact ⟨[.connectFail], rfl⟩

/-- C7: the uplink block is `(sample_rate / 50) * channel_count` 16-bit
samples; at the 24000 Hz mono configuration of `main.cc` that is 480
samples, a 960-byte payload, and the header declares exactly that
size. -/
theorem C7_block_size :
    (∀ sr ch : Nat, frameSize sr ch = sr / 50 * ch) ∧
    frameSize INPUT_SR INPUT_CHANNELS = 480 ∧
    uplinkPayloadBytes INPUT_SR INPUT_CHANNELS = 960 ∧
    (uplinkHeader INPUT_SR INPUT_CHANNELS).len = uplinkPayloadBytes INPUT_SR INPUT_CHANNELS :=
  ⟨fun _ _ => rfl, by decide, by decide, by decide⟩

/-- C8: `send_all` retries partial sends until exactly `n` bytes are
written (under the socket guarantee that no call transfers more than
requested) and returns true; on a zero/negative transport return it
stops short of `n` and returns false; and a false return in the uplink
streaming body transitions the machine to `closing`. -/
theorem C8_send_all_exact :
    (∀ (rets : List Int) (n : Nat), oracleFits rets n = true →
      (sendAll rets n).1 = true → (sendAll rets n).2.1 = n) ∧
    (∀ (rets : List Int) (n : Nat),
      (sendAll rets n).1 = false → (sendAll rets n).2.1 < n) ∧
    (∀ sr ch : Nat, upStep sr ch .streaming .hdrSendFail = (.closing, 0, none)) ∧
    (∀ sr ch : Nat, upStep sr ch .streaming .payloadSendFail =
      (.closing, 0, some (uplinkHeader sr ch))) := by
  refine ⟨?_, ?_, fun _ _ => rfl, fun _ _ => rfl⟩
  · intro rets n hfit htrue
    exact sendAllLoop_true rets 0 n (Nat.zero_le n) hfit htrue
  · intro rets n hfalse
    exact sendAllLoop_false rets 0 n hfalse

/-- C8 witness: an oracle of partial sends 3+4+3 completes a 10-byte
write exactly; an oracle failing after 3 bytes stops short. -/
theorem C8_send_all_exact_witness :
    (sendAll [3, 4, 3] 10).2.1 = 10 ∧ (sendAll [3, 0] 10).2.1 < 10 :=
  ⟨C8_send_all_exact.1 [3, 4, 3] 10 (by decide) (by decide),
    C8_send_all_exact.2.1 [3, 0] 10 (by decide)⟩

/-- C9: `K` consecutive no-data polls keep the uplink in `streaming`
with exactly one 5 ms wait per failed poll — the connection is neither
closed nor re-established and there is no tighter busy-loop — and a
following successful pull sends one frame on the same connection. -/
theorem C9_backpressure (sr ch K : Nat) :
    runUp sr ch .streaming (List.replicate K .inputNone) =
      (.streaming, List.replicate K 5, []) ∧
    runUp sr ch .streaming (List.replicate K .inputNone ++ [.frameSent]) =
      (.streaming, List.replicate K 5 ++ [0], [uplinkHeader sr ch]) := by
  induction K with
  | zero => exact ⟨rfl, rfl⟩
  | succ K ih =>
      refine ⟨?_, ?_⟩
      · rw [List.replicate_succ, List.replicate_succ, runUp]
        simp only [upStep, ih.1, Option.toList, List.nil_append]
      · rw [List.replicate_succ, List.replicate_succ, List.cons_append, runUp]
        simp only [upStep, ih.2, Option.toList, List.cons_append, List.nil_append]

/-- Every header emitted by a run of the uplink loop is the single
header value built from the configured rate and channel count. -/
lemma runUp_headers (sr ch : Nat) (s : UpState) (evs : List UpEvent)
    (h : PcmHeader) (hmem : h ∈ (runUp sr ch s evs).2.2) :
    h = uplinkHeader sr ch := by
  induction evs generalizing s with
  | nil => simp [runUp] at hmem
  | cons e es ih =>
      rw [runUp] at hmem
      rcases List.mem_append.1 hmem with hl | hr
      · cases s <;> cases e <;> simp [upStep, Option.toList] at hl <;> exact hl
      · exact ih _ hr

/-- C10: over any run of the uplink loop — any number of frames, sends
and reconnections — every header written has magic `0x304D4350`,
direction tag 1, and declared length 960, the fixed
`frame_samples * channels * 2` value for the 24000 Hz mono
configuration; that length is non-zero and even. -/
theorem C10_uplink_header_constant (s : UpState) (evs : List UpEvent)
    (h : PcmHeader) (hmem : h ∈ (runUp INPUT_SR INPUT_CHANNELS s evs).2.2) :
    h = PcmHeader.mk PCM_MAGIC 1 960 ∧
    h.len = frameSize INPUT_SR INPUT_CHANNELS * 2 ∧
    h.len ≠ 0 ∧ h.len % 2 = 0 := by
  have := runUp_headers INPUT_SR INPUT_CHANNELS s evs h hmem
  subst this
  refine ⟨by decide, by decide, by decide, by decide⟩

/-- C10 witness: a run sending one frame emits exactly the constant
header. -/
theorem C10_uplink_header_constant_witness :
    uplinkHeader INPUT_SR INPUT_CHANNELS = PcmHeader.mk PCM_MAGIC 1 960 :=
  (C10_uplink_header_constant .streaming [.frameSent]
    (uplinkHeader INPUT_SR INPUT_CHANNELS) (by decide)).1

end NetStream
